import Mathlib

/-!
Shallow embedding of the dbutil package of interline-io/transitland-dbutil.

The package is an entity-oriented persistence layer over Postgres.  The
embedding translates the control flow of src/dbutil/db.go and
src/dbutil/postgres.go into pure Lean functions.  External collaborators
(the sqlx driver, the squirrel query builder, the reflection-based mapper
in the tags package) are abstracted as oracle parameters: each call site
that performs real I/O or reflection takes the outcome of that call as an
explicit argument, and the Lean definitions reproduce exactly how the Go
code combines those outcomes.
-/

/-- Go error values are modeled as strings; a Go nil error is none. -/
abbrev Err := String

/-- A record (entity) handed to the persistence engine.  The Go code probes
capabilities with type assertions (canSetID, canUpdateTimestamps,
hasTableName) and obtains the column header and value tuple from the
reflection-based mapper (MapperCache.GetHeader, MapperCache.GetInsert in
the tags package, outside src).  Those mapper results are carried as
oracle fields of the record: headerRes is the outcome of GetHeader and
valsRes the outcome of GetInsert for the derived header. -/
structure Ent where
  canSetID : Bool
  id : Int
  canUpdateTimestamps : Bool
  stamped : Bool
  table : String
  headerRes : Except Err (List String)
  valsRes : Except Err (List String)

/-- Capability-guarded timestamp stamping: the Go code calls
v.UpdateTimestamps() only when the record implements canUpdateTimestamps. -/
def updateTimestamps (e : Ent) : Ent :=
  if e.canUpdateTimestamps then { e with stamped := true } else e

theorem updateTimestamps_headerRes (e : Ent) :
    (updateTimestamps e).headerRes = e.headerRes := by
  unfold updateTimestamps
  split <;> rfl

theorem updateTimestamps_canSetID (e : Ent) :
    (updateTimestamps e).canSetID = e.canSetID := by
  unfold updateTimestamps
  split <;> rfl

theorem updateTimestamps_id (e : Ent) :
    (updateTimestamps e).id = e.id := by
  unfold updateTimestamps
  split <;> rfl

theorem updateTimestamps_table (e : Ent) :
    (updateTimestamps e).table = e.table := by
  unfold updateTimestamps
  split <;> rfl

theorem updateTimestamps_valsRes (e : Ent) :
    (updateTimestamps e).valsRes = e.valsRes := by
  unfold updateTimestamps
  split <;> rfl

/-- The chunk size computed by PostgresAdapter.MultiInsertEnts
(src/dbutil/postgres.go line 200): batchSize := 65536 / (len(header) + 1),
with Go integer division. -/
def pgBatchSize (ncols : Nat) : Nat := 65536 / (ncols + 1)

/-- Fuel-indexed chunking of a list into consecutive slices, mirroring the
loop header "for i := 0; i < len(ents); i += batchSize" with slice
ents[i : min(i+batchSize, len(ents))] (src/dbutil/postgres.go lines
201-202).  The fuel makes the recursion structural; chunked below supplies
fuel equal to the list length, which is enough whenever the chunk size is
positive.  When the chunk size is 0 the Go loop never advances i and does
not terminate; the model advances by max C 1 instead, and every theorem
that touches chunk behavior assumes a positive chunk size. -/
def chunkedFuel (C : Nat) : Nat → List α → List (List α)
  | _, [] => []
  | 0, _ :: _ => []
  | fuel + 1, x :: xs =>
    ((x :: xs).take (max C 1)) :: chunkedFuel C fuel ((x :: xs).drop (max C 1))

/-- Chunking with fuel equal to the list length. -/
def chunked (C : Nat) (l : List α) : List (List α) := chunkedFuel C l.length l

/-- Result of MultiInsertEnts: the accumulated returned identifiers, the
final value of the Go err variable, and the number of multi-row INSERT
statements issued. -/
structure MultiResult where
  retids : List Int
  err : Option Err
  stmts : Nat

/-- The per-chunk execution loop of PostgresAdapter.MultiInsertEnts
(src/dbutil/postgres.go lines 201-226).  exec gives the outcome of the
statement issued for chunk i: the list of identifiers scanned from the
RETURNING rows before any failure, paired with the error of q.Query / a
row Scan (identifier path) or of q.Exec (plain path).

Source control flow mirrored exactly:
- identifier path: "rows, err := q.Query()" declares a fresh err, and the
  Scan error is likewise fresh, so a failure returns immediately with the
  identifiers accumulated so far while success leaves the outer err
  untouched;
- plain path: "_, err = q.Exec()" overwrites the outer err on every
  chunk, so an earlier failure is replaced by the outcome of the next
  chunk;
- the values for each row come from "vals, _ := MapperCache.GetInsert(d,
  header)", whose error is discarded, so the value tuples of the records
  never influence the control flow. -/
def runChunks (exec : Nat → List Int × Option Err) (setid : Bool) :
    Nat → List (List Ent) → List Int → Option Err → MultiResult
  | _, [], acc, errVar => ⟨acc, errVar, 0⟩
  | i, _ :: rest, acc, errVar =>
    if setid then
      match exec i with
      | (ids, some e) => ⟨acc ++ ids, some e, 1⟩
      | (ids, none) =>
        let r := runChunks exec setid (i + 1) rest (acc ++ ids) errVar
        ⟨r.retids, r.err, r.stmts + 1⟩
    else
      let r := runChunks exec setid (i + 1) rest acc (exec i).2
      ⟨r.retids, r.err, r.stmts + 1⟩

/-- PostgresAdapter.MultiInsertEnts (src/dbutil/postgres.go lines 187-228).
An empty batch returns immediately with no identifiers and a nil error.
Otherwise every record is timestamp-stamped, the header is derived from
the first record by "header, err := MapperCache.GetHeader(ents[0])" whose
error is carried in the outer err variable but NOT checked (on failure the
Go header is nil, length 0), the identifier capability is probed on the
first record, the chunk size is computed from the header length, and the
chunks are executed in order by runChunks. -/
def multiInsertEnts (exec : Nat → List Int × Option Err) (ents : List Ent) :
    MultiResult :=
  match ents with
  | [] => ⟨[], none, 0⟩
  | e0 :: rest =>
    let stamped := updateTimestamps e0 :: rest.map updateTimestamps
    let header :=
      match (updateTimestamps e0).headerRes with
      | .ok h => h
      | .error _ => []
    let err0 : Option Err :=
      match (updateTimestamps e0).headerRes with
      | .ok _ => none
      | .error e => some e
    let setid := (updateTimestamps e0).canSetID
    runChunks exec setid 0 (chunked (pgBatchSize header.length) stamped) [] err0

/-- Database handles (sqlx.Ext values) as they matter to the transaction
logic of PostgresAdapter.Tx: a pool connection (sqlx.DB), an active
transaction (sqlx.Tx), or a QueryLogger decorator whose Ext field wraps
another (possibly nil) handle.  QueryLogger lives in this repository
outside src; the only parts used by src are its Ext field and its
construction, both visible in src/dbutil/postgres.go. -/
inductive Handle where
  | db
  | tx
  | queryLogger (ext : Option Handle)

/-- PostgresAdapter (src/dbutil/postgres.go lines 20-23): a database URL
and an sqlx.Ext handle, nil modeled as none. -/
structure PGAdapter where
  dburl : String
  dbh : Option Handle

/-- The type switch at the start of PostgresAdapter.Tx
(src/dbutil/postgres.go lines 74-81): a transaction is detected when the
handle is an sqlx.Tx directly, or a QueryLogger whose Ext is an sqlx.Tx. -/
def detectTx : Option Handle → Bool
  | some Handle.tx => true
  | some (Handle.queryLogger (some Handle.tx)) => true
  | _ => false

/-- The canBeginx capability probe (src/dbutil/db.go lines 128-130,
asserted in src/dbutil/postgres.go line 83).  sqlx.DB implements Beginx;
sqlx.Tx does not.  Whether QueryLogger forwards Beginx is decided by code
outside src and is irrelevant to the claims (detection short-circuits it);
the model treats only the pool handle as beginnable. -/
def canBeginx : Option Handle → Bool
  | some Handle.db => true
  | _ => false

/-- Outcomes of the transaction primitives for one Tx call: the errors
returned by Beginx, Commit and Rollback, nil modeled as none. -/
structure TxBeh where
  beginErr : Option Err
  commitErr : Option Err
  rollbackErr : Option Err

/-- Which transaction primitives a Tx call invoked. -/
structure TxEffects where
  began : Bool
  committed : Bool
  rolledBack : Bool

/-- No transaction primitive invoked. -/
def noTxEffects : TxEffects := ⟨false, false, false⟩

/-- PostgresAdapter.Tx (src/dbutil/postgres.go lines 69-103).  The switch
detects an already-active transaction (directly or through one
QueryLogger layer) and, when found, reuses it: commit stays false, so the
callback result is propagated with no Begin, Commit or Rollback.  When no
transaction is found and the handle supports Beginx, one is begun and
commit is set; a Beginx failure is returned at once.  The callback runs
against a derived adapter whose handle is QueryLogger{Ext: tx}.  On
callback failure with commit set, Rollback runs: a Rollback error is
returned in place of the callback error, otherwise the callback error is
returned.  On callback success with commit set, the Commit outcome is
returned. -/
def pgTx (beh : TxBeh) (adapter : PGAdapter) (cb : PGAdapter → Option Err) :
    Option Err × TxEffects :=
  let tx0 : Option Handle := if detectTx adapter.dbh then some Handle.tx else none
  if tx0.isNone && canBeginx adapter.dbh then
    match beh.beginErr with
    | some e => (some e, ⟨true, false, false⟩)
    | none =>
      match cb ⟨adapter.dburl, some (Handle.queryLogger (some Handle.tx))⟩ with
      | some err2 =>
        match beh.rollbackErr with
        | some errTx => (some errTx, ⟨true, false, true⟩)
        | none => (some err2, ⟨true, false, true⟩)
      | none => (beh.commitErr, ⟨true, true, false⟩)
  else
    match cb ⟨adapter.dburl, some (Handle.queryLogger tx0)⟩ with
    | some err2 => (some err2, noTxEffects)
    | none => (none, noTxEffects)

/-- PostgresAdapter.Open (src/dbutil/postgres.go lines 30-48).  When the
adapter already holds a handle it returns nil at once.  Otherwise
sqlx.Open produces a local db (outcome openRes), pool limits and the
mapper are set on that local value, and Ping runs (outcome pingErr).  The
local db is never assigned to adapter.db, so the adapter is returned
unchanged on every path. -/
def pgOpen (openRes : Except Err Handle) (pingErr : Option Err)
    (adapter : PGAdapter) : Option Err × PGAdapter :=
  match adapter.dbh with
  | some _ => (none, adapter)
  | none =>
    match openRes with
    | .error e => (some e, adapter)
    | .ok _db =>
      match pingErr with
      | some e => (some e, adapter)
      | none => (none, adapter)

/-- PostgresAdapter.DBX (src/dbutil/postgres.go lines 64-66). -/
def pgDBX (adapter : PGAdapter) : Option Handle := adapter.dbh

/-- The error taxonomy surfaced by the entity find path: a mapping error
(missing identifier capability), the distinct zero-rows sentinel, or a
generic query failure. -/
inductive FindErr where
  | mappingError (msg : String)
  | notFound
  | queryError (msg : String)

/-- One-row fetch as performed by Get (src/dbutil/db.go lines 69-96)
through sqlx.  The driver outcome is an oracle: qErr is a query-execution
failure, row the single matching row if any.  Per the documented
database/sql and sqlx semantics, a query that matches zero rows makes Get
return the distinct sql.ErrNoRows sentinel, modeled as FindErr.notFound. -/
def getOneRow (qErr : Option Err) (row : Option Ent) : Except FindErr Ent :=
  match qErr with
  | some e => .error (.queryError e)
  | none =>
    match row with
    | none => .error .notFound
    | some r => .ok r

/-- FindEnt (src/dbutil/db.go lines 145-155): resolve the table, require
the identifier capability (otherwise the error "cannot get ID"), build
SELECT * FROM table WHERE id = entId, and fetch one row via Get. -/
def findEnt (qErr : Option Err) (row : Option Ent) (ent : Ent) :
    Except FindErr Ent :=
  if ent.canSetID then getOneRow qErr row
  else .error (.mappingError "cannot get ID")

/-- PostgresAdapter.FindEnt (src/dbutil/postgres.go lines 141-143): the
method body is exactly "return nil" for every input. -/
def pgAdapterFindEnt (_ent : Ent) : Option Err := none

/-- PostgresAdapter.InsertEnt (src/dbutil/postgres.go lines 154-184).
Stamps timestamps, derives header and values (each error returned with id
0), then: with the identifier capability, appends RETURNING "id" and scans
the generated identifier into eid (oracle queryId), writes it into the
record via SetID and returns it; without the capability, executes plainly
(oracle execErr) and eid stays at its zero value, so 0 is returned.
Returns (returned id, error, record after mutation). -/
def pgInsertEnt (queryId : Except Err Int) (execErr : Option Err)
    (ent : Ent) : Int × Option Err × Ent :=
  let ent := updateTimestamps ent
  match ent.headerRes with
  | .error e => (0, some e, ent)
  | .ok _ =>
    match ent.valsRes with
    | .error e => (0, some e, ent)
    | .ok _ =>
      if ent.canSetID then
        match queryId with
        | .error e => (0, some e, ent)
        | .ok n => (n, none, { ent with id := n })
      else
        match execErr with
        | some e => (0, some e, ent)
        | none => (0, none, ent)

/-- The standalone InsertEnt (src/dbutil/db.go lines 190-247).  Stamps
timestamps, derives header and values (each error returned with id 0),
declares "var eid sql.NullInt64" which is NEVER written afterwards, adds
RETURNING "id" when the driver is postgres (isPg), and executes:
- postgres path: QueryRowx, a row error is returned; otherwise
  "row.Scan(&entId)" stores the generated identifier into the LOCAL entId
  (its error discarded);
- other drivers: Exec, an execution or LastInsertId error is returned;
  otherwise LastInsertId is stored into entId.
Finally "v.SetID(int(eid.Int64))" and "return int(eid.Int64), err" use
eid, which is still the zero value, so on success the function always
writes id 0 into the record and returns 0, regardless of entId. -/
def dbInsertEnt (isPg : Bool) (rowErr : Option Err) (scannedId : Int)
    (lastInsertId : Except Err Int) (ent : Ent) : Int × Option Err × Ent :=
  let ent := updateTimestamps ent
  match ent.headerRes with
  | .error e => (0, some e, ent)
  | .ok _ =>
    match ent.valsRes with
    | .error e => (0, some e, ent)
    | .ok _ =>
      if isPg then
        match rowErr with
        | some e => (0, some e, ent)
        | none =>
          let _entId := scannedId
          let ent := if ent.canSetID then { ent with id := 0 } else ent
          (0, none, ent)
      else
        match lastInsertId with
        | .error e => (0, some e, ent)
        | .ok a =>
          let _entId := a
          let ent := if ent.canSetID then { ent with id := 0 } else ent
          (0, none, ent)

/-- The helper contains (src/dbutil/db.go lines 259-266). -/
def contains (a : String) : List String → Bool
  | [] => false
  | v :: rest => if a = v then true else contains a rest

/-- The UPDATE statement assembled by UpdateEnt: target table, the id used
in the WHERE clause, and the column-to-value assignments of the SET
clause.  The Go code collects the assignments in a map keyed by column
name and hands it to SetMap; the model keeps the pairs in header order,
which carries the same key set (mapper-derived headers have distinct
column names). -/
structure UpdateStmt where
  table : String
  entId : Int
  setPairs : List (String × String)

/-- The statement-building part of UpdateEnt (src/dbutil/db.go lines
157-188).  Stamps timestamps, requires the identifier capability
(otherwise the error "cannot get ID"), derives header and values, and
fills colmap by the loop "for i, col := range header", skipping col when a
non-empty column subset is given and does not contain it.  The built
statement is UPDATE table SET colmap WHERE id = entId; its execution is a
separate driver call not needed by the claims about the statement shape. -/
def buildUpdateEnt (ent : Ent) (columns : List String) :
    Except Err UpdateStmt :=
  let ent := updateTimestamps ent
  if ent.canSetID then
    match ent.headerRes with
    | .error e => .error e
    | .ok header =>
      match ent.valsRes with
      | .error e => .error e
      | .ok vals =>
        let colmap := (header.zip vals).filter
          (fun cv => !(columns.length > 0 && !(contains cv.1 columns)))
        .ok ⟨ent.table, ent.id, colmap⟩
  else .error "cannot get ID"

/-- Oracle outcomes for the COPY protocol used by CopyInsertEnts: whether
the transaction-scoped handle supports Prepare, the outcome of preparing
the COPY statement, the outcome of the per-row stmt.Exec calls, and the
outcome of the final flushing stmt.Exec(). -/
structure CopyEnv where
  isPreparer : Bool
  prepareErr : Option Err
  rowExec : Nat → Option Err
  flushErr : Option Err

/-- The per-record loop of the CopyInsertEnts callback
(src/dbutil/postgres.go lines 256-270): for each record, GetInsert (error
checked and returned here, unlike MultiInsertEnts) then stmt.Exec with the
values (error checked); after the loop a final stmt.Exec() flushes the
COPY stream.  Returns the callback error and the number of per-row Exec
calls performed. -/
def copyRows (env : CopyEnv) : Nat → List Ent → Option Err × Nat
  | _, [] => (env.flushErr, 0)
  | j, d :: rest =>
    match d.valsRes with
    | .error e => (some e, 0)
    | .ok _ =>
      match env.rowExec j with
      | some e => (some e, 1)
      | none =>
        let r := copyRows env (j + 1) rest
        (r.1, r.2 + 1)

/-- The callback passed to adapter.Tx by CopyInsertEnts
(src/dbutil/postgres.go lines 241-271): require the Preparer capability
(otherwise the error "not Preparer"), derive the header of the first
record (error checked), prepare the COPY statement, then stream the rows. -/
def copyCb (env : CopyEnv) (stamped : List Ent) : Option Err × Nat :=
  if !env.isPreparer then (some "not Preparer", 0)
  else
    match stamped with
    | [] => (none, 0)
    | e0 :: _ =>
      match e0.headerRes with
      | .error e => (some e, 0)
      | .ok _ =>
        match env.prepareErr with
        | some e => (some e, 0)
        | none => copyRows env 0 stamped

/-- PostgresAdapter.CopyInsertEnts (src/dbutil/postgres.go lines 231-272).
An empty batch returns nil before stamping and before adapter.Tx is
entered, so no transaction primitive runs and no statement is issued.
Otherwise every record is stamped and adapter.Tx runs the COPY callback;
the Tx control flow of pgTx is reproduced inline so that the number of
per-row statements the callback issued can be reported alongside the
transaction effects.  Returns (error, transaction effects, per-row Exec
count). -/
def copyInsertEnts (beh : TxBeh) (env : CopyEnv) (adapter : PGAdapter)
    (ents : List Ent) : Option Err × TxEffects × Nat :=
  match ents with
  | [] => (none, noTxEffects, 0)
  | _ :: _ =>
    let stamped := ents.map updateTimestamps
    let tx0 : Option Handle := if detectTx adapter.dbh then some Handle.tx else none
    let cbRes := copyCb env stamped
    if tx0.isNone && canBeginx adapter.dbh then
      match beh.beginErr with
      | some e => (some e, ⟨true, false, false⟩, 0)
      | none =>
        match cbRes.1 with
        | some err2 =>
          match beh.rollbackErr with
          | some errTx => (some errTx, ⟨true, false, true⟩, cbRes.2)
          | none => (some err2, ⟨true, false, true⟩, cbRes.2)
        | none => (beh.commitErr, ⟨true, true, false⟩, cbRes.2)
    else
      match cbRes.1 with
      | some err2 => (some err2, noTxEffects, cbRes.2)
      | none => (none, noTxEffects, cbRes.2)

theorem chunkedFuel_length {C : Nat} (hC : 0 < C) :
    ∀ (fuel : Nat) (l : List α), l.length ≤ fuel →
      (chunkedFuel C fuel l).length = (l.length + C - 1) / C := by
  have hz : (C - 1) / C = 0 := Nat.div_eq_of_lt (by omega)
  have key : ∀ n', 1 ≤ n' → (n' - C + C - 1) / C + 1 = (n' + C - 1) / C := by
    intro n' hn'
    have h1 : n' + C - 1 = (n' - 1) + C := by omega
    rw [h1, Nat.add_div_right _ hC]
    rcases Nat.le_total C n' with h | h
    · have h2 : n' - C + C - 1 = n' - 1 := by omega
      rw [h2]
    · have h2 : n' - C + C - 1 = C - 1 := by omega
      rw [h2, hz, Nat.div_eq_of_lt (by omega)]
  intro fuel
  induction fuel with
  | zero =>
    intro l hl
    cases l with
    | nil => simpa [chunkedFuel] using hz.symm
    | cons x xs => simp at hl
  | succ n ih =>
    intro l hl
    cases l with
    | nil => simpa [chunkedFuel] using hz.symm
    | cons x xs =>
      have hmax : max C 1 = C := Nat.max_eq_left hC
      have hdrop : ((x :: xs).drop C).length ≤ n := by
        simp only [List.length_drop, List.length_cons]
        simp only [List.length_cons] at hl
        omega
      simp only [chunkedFuel, hmax, List.length_cons]
      rw [ih _ hdrop]
      simp only [List.length_drop, List.length_cons]
      exact key (xs.length + 1) (by omega)

theorem chunkedFuel_flatten {C : Nat} (hC : 0 < C) :
    ∀ (fuel : Nat) (l : List Int), l.length ≤ fuel →
      (chunkedFuel C fuel l).flatten = l := by
  intro fuel
  induction fuel with
  | zero =>
    intro l hl
    cases l with
    | nil => rfl
    | cons x xs => simp at hl
  | succ n ih =>
    intro l hl
    cases l with
    | nil => rfl
    | cons x xs =>
      have hmax : max C 1 = C := Nat.max_eq_left hC
      have hdrop : ((x :: xs).drop C).length ≤ n := by
        simp only [List.length_drop, List.length_cons]
        simp only [List.length_cons] at hl
        omega
      simp only [chunkedFuel, hmax, List.flatten_cons]
      rw [ih _ hdrop, List.take_append_drop]

theorem chunked_length {C : Nat} (hC : 0 < C) (l : List α) :
    (chunked C l).length = (l.length + C - 1) / C :=
  chunkedFuel_length hC l.length l (Nat.le_refl _)

theorem chunked_flatten {C : Nat} (hC : 0 < C) (l : List Int) :
    (chunked C l).flatten = l :=
  chunkedFuel_flatten hC l.length l (Nat.le_refl _)

theorem runChunks_stmts (exec : Nat → List Int × Option Err) (setid : Bool)
    (hok : ∀ i, (exec i).2 = none) :
    ∀ (chunks : List (List Ent)) (i : Nat) (acc : List Int)
      (errVar : Option Err),
      (runChunks exec setid i chunks acc errVar).stmts = chunks.length := by
  intro chunks
  induction chunks with
  | nil => intro i acc errVar; rfl
  | cons c rest ih =>
    intro i acc errVar
    cases setid with
    | true =>
      rcases hE : exec i with ⟨ids, e2⟩
      have h2 : e2 = none := by
        have h := hok i
        rw [hE] at h
        exact h
      subst h2
      simp [runChunks, hE, ih]
    | false => simp [runChunks, ih]

/-- Concatenation of the identifier segments returned for chunks i,
i+1, ..., i+m-1. -/
def segsFrom (segs : Nat → List Int) : Nat → Nat → List Int
  | _, 0 => []
  | i, m + 1 => segs i ++ segsFrom segs (i + 1) m

theorem segsFrom_congr {f g : Nat → List Int} (h : ∀ j, f j = g j) :
    ∀ (m i : Nat), segsFrom f i m = segsFrom g i m := by
  intro m
  induction m with
  | zero => intro i; rfl
  | succ k ih => intro i; simp only [segsFrom, h i, ih]

theorem segsFrom_shift (segs : Nat → List Int) :
    ∀ (m i : Nat), segsFrom segs (i + 1) m = segsFrom (fun j => segs (j + 1)) i m := by
  intro m
  induction m with
  | zero => intro i; rfl
  | succ k ih => intro i; simp only [segsFrom, ih]

theorem segsFrom_getD (L : List (List Int)) :
    segsFrom (fun j => L.getD j []) 0 L.length = L.flatten := by
  induction L with
  | nil => rfl
  | cons c rest ih =>
    have h1 : segsFrom (fun j => (c :: rest).getD j []) (0 + 1) rest.length
        = segsFrom (fun j => rest.getD j []) 0 rest.length := by
      rw [segsFrom_shift]
      exact segsFrom_congr (fun j => rfl) rest.length 0
    simp only [List.length_cons, segsFrom, List.flatten_cons]
    rw [h1, ih]
    rfl

theorem runChunks_retids (exec : Nat → List Int × Option Err)
    (segs : Nat → List Int) (hexec : ∀ j, exec j = (segs j, none)) :
    ∀ (chunks : List (List Ent)) (i : Nat) (acc : List Int)
      (errVar : Option Err),
      runChunks exec true i chunks acc errVar =
        ⟨acc ++ segsFrom segs i chunks.length, errVar, chunks.length⟩ := by
  intro chunks
  induction chunks with
  | nil => intro i acc errVar; simp [runChunks, segsFrom]
  | cons c rest ih =>
    intro i acc errVar
    simp [runChunks, hexec i, ih, segsFrom, List.append_assoc]

theorem zip_filter_map_fst (p : String → Bool) :
    ∀ (h : List String) (vs : List String), vs.length = h.length →
      ((h.zip vs).filter (fun cv => p cv.1)).map Prod.fst = h.filter p := by
  intro h
  induction h with
  | nil => intro vs hl; simp
  | cons c hs ih =>
    intro vs hl
    cases vs with
    | nil => simp at hl
    | cons v vs' =>
      have hl' : vs'.length = hs.length := by
        simp only [List.length_cons] at hl
        omega
      simp only [List.zip_cons_cons, List.filter_cons]
      by_cases hp : p c
      · simp [hp, ih vs' hl']
      · simp [hp, ih vs' hl']

/-- C2: when Tx is called on a handle that is already inside an active
transaction (the handle is an sqlx.Tx directly, or an sqlx.Tx wrapped in
exactly one QueryLogger layer), the call reuses that transaction: no
Beginx, no Commit and no Rollback run, and the result is exactly the
result of the callback, run against the reused transaction wrapped in a
QueryLogger. -/
theorem tx_reuses_active_transaction (beh : TxBeh) (u : String)
    (cb : PGAdapter → Option Err) :
    pgTx beh ⟨u, some Handle.tx⟩ cb =
      (cb ⟨u, some (Handle.queryLogger (some Handle.tx))⟩, noTxEffects) ∧
    pgTx beh ⟨u, some (Handle.queryLogger (some Handle.tx))⟩ cb =
      (cb ⟨u, some (Handle.queryLogger (some Handle.tx))⟩, noTxEffects) := by
  refine ⟨?_, ?_⟩ <;>
  · simp only [pgTx, detectTx, canBeginx]
    cases h : cb ⟨u, some (Handle.queryLogger (some Handle.tx))⟩ <;>
      simp [h, noTxEffects]

/-- C3: for an outermost Tx call (pool handle, Beginx succeeds) whose
callback fails, Rollback runs; a Rollback failure is returned in place of
the callback error, and otherwise the callback error is returned
unchanged. -/
theorem tx_rollback_error_overrides (beh : TxBeh) (u : String)
    (cb : PGAdapter → Option Err) (e2 : Err)
    (hb : beh.beginErr = none)
    (hcb : cb ⟨u, some (Handle.queryLogger (some Handle.tx))⟩ = some e2) :
    pgTx beh ⟨u, some Handle.db⟩ cb =
      ((match beh.rollbackErr with
        | some errTx => some errTx
        | none => some e2), ⟨true, false, true⟩) := by
  simp only [pgTx, detectTx, canBeginx, hb, hcb]
  cases hr : beh.rollbackErr <;> simp [hr]

/-- Witness for C3 at concrete inputs: a rollback failure is surfaced in
place of the callback error. -/
theorem tx_rollback_error_overrides_witness :
    pgTx ⟨none, none, some "rollback failed"⟩ ⟨"db", some Handle.db⟩
        (fun _ => some "callback failed") =
      (some "rollback failed", ⟨true, false, true⟩) := by
  have h := tx_rollback_error_overrides ⟨none, none, some "rollback failed"⟩
    "db" (fun _ => some "callback failed") "callback failed" rfl rfl
  exact h

/-- C4 counterexample: with a one-column header the computed chunk size is
32768 and chunk_size * (column_count + 1) equals the ceiling 65536 — it
does not stay under it. -/
theorem bulk_chunk_bound_counterexample :
    pgBatchSize 1 = 32768 ∧ pgBatchSize 1 * (1 + 1) = 65536 ∧
    ¬ pgBatchSize 1 * (1 + 1) < 65536 := by decide

/-- C4 (amended): for a non-empty batch whose derived header has k
columns, the chunk size C = 65536 / (k + 1) satisfies C * (k + 1) ≤ 65536
(so the actual per-chunk bound-parameter count C * k stays strictly under
65536), and, when C is positive, a fully successful run issues exactly
ceil(N / C) multi-row INSERT statements. -/
theorem bulk_chunk_count (e0 : Ent) (rest : List Ent)
    (exec : Nat → List Int × Option Err) (hdr : List String)
    (hh : e0.headerRes = .ok hdr)
    (hC : 0 < pgBatchSize hdr.length)
    (hok : ∀ i, (exec i).2 = none) :
    pgBatchSize hdr.length * (hdr.length + 1) ≤ 65536 ∧
    pgBatchSize hdr.length * hdr.length < 65536 ∧
    (multiInsertEnts exec (e0 :: rest)).stmts =
      ((e0 :: rest).length + pgBatchSize hdr.length - 1) / pgBatchSize hdr.length := by
  have h1 : pgBatchSize hdr.length * (hdr.length + 1) ≤ 65536 :=
    Nat.div_mul_le_self 65536 (hdr.length + 1)
  refine ⟨h1, ?_, ?_⟩
  · have h2 : pgBatchSize hdr.length * (hdr.length + 1)
        = pgBatchSize hdr.length * hdr.length + pgBatchSize hdr.length := by
      ring
    omega
  · have hstamp : (updateTimestamps e0).headerRes = .ok hdr := by
      rw [updateTimestamps_headerRes, hh]
    simp only [multiInsertEnts, hstamp]
    rw [runChunks_stmts exec _ hok, chunked_length hC]
    simp [List.length_map]

/-- Witness for the amended C4 at concrete inputs: two one-column records
give chunk size 32768 and one statement. -/
theorem bulk_chunk_count_witness :
    pgBatchSize 1 * (1 + 1) ≤ 65536 ∧ pgBatchSize 1 * 1 < 65536 ∧
    (multiInsertEnts (fun _ => ([], none))
        [⟨false, 0, false, false, "t", .ok ["a"], .ok ["v"]⟩,
         ⟨false, 0, false, false, "t", .ok ["a"], .ok ["v"]⟩]).stmts =
      (2 + pgBatchSize 1 - 1) / pgBatchSize 1 :=
  bulk_chunk_count ⟨false, 0, false, false, "t", .ok ["a"], .ok ["v"]⟩
    [⟨false, 0, false, false, "t", .ok ["a"], .ok ["v"]⟩]
    (fun _ => ([], none)) ["a"] rfl (by decide) (fun i => rfl)

/-- C5: for a non-empty batch whose first record exposes the identifier
capability, when every chunk statement succeeds and returns exactly the
identifiers the store generated for the rows of that chunk (the consecutive
segments of the per-row list assigned), MultiInsertEnts returns one
identifier per input record, in input order across chunk boundaries. -/
theorem bulk_ids_preserve_order (e0 : Ent) (rest : List Ent)
    (exec : Nat → List Int × Option Err) (assigned : List Int)
    (hdr : List String)
    (hset : e0.canSetID = true)
    (hh : e0.headerRes = .ok hdr)
    (hC : 0 < pgBatchSize hdr.length)
    (hlen : assigned.length = (e0 :: rest).length)
    (hexec : ∀ j, exec j =
      ((chunked (pgBatchSize hdr.length) assigned).getD j [], none)) :
    (multiInsertEnts exec (e0 :: rest)).retids = assigned ∧
    (multiInsertEnts exec (e0 :: rest)).err = none ∧
    (multiInsertEnts exec (e0 :: rest)).retids.length = (e0 :: rest).length := by
  have hstamp : (updateTimestamps e0).headerRes = .ok hdr := by
    rw [updateTimestamps_headerRes, hh]
  have hsetid : (updateTimestamps e0).canSetID = true := by
    rw [updateTimestamps_canSetID, hset]
  have hlenS : (updateTimestamps e0 :: rest.map updateTimestamps).length
      = assigned.length := by
    simp only [List.length_cons, List.length_map]
    simp only [List.length_cons] at hlen
    omega
  have hnum : (chunked (pgBatchSize hdr.length)
        (updateTimestamps e0 :: rest.map updateTimestamps)).length
      = (chunked (pgBatchSize hdr.length) assigned).length := by
    rw [chunked_length hC, chunked_length hC, hlenS]
  have hflat : segsFrom
      (fun j => (chunked (pgBatchSize hdr.length) assigned).getD j []) 0
      (chunked (pgBatchSize hdr.length) assigned).length = assigned := by
    rw [segsFrom_getD, chunked_flatten hC]
  have hO : multiInsertEnts exec (e0 :: rest) =
      ⟨assigned, none, (chunked (pgBatchSize hdr.length) assigned).length⟩ := by
    simp only [multiInsertEnts, hstamp, hsetid]
    rw [runChunks_retids exec _ hexec, hnum, hflat]
    simp
  refine ⟨by rw [hO], by rw [hO], ?_⟩
  rw [hO, hlen]

/-- Witness for C5 at concrete inputs: two records with identifier
capability receive the generated identifiers 7 and 9 in input order. -/
theorem bulk_ids_preserve_order_witness :
    (multiInsertEnts
        (fun j => ((chunked (pgBatchSize 1) [7, 9]).getD j [], none))
        [⟨true, 0, false, false, "t", .ok ["a"], .ok ["v"]⟩,
         ⟨true, 0, false, false, "t", .ok ["a"], .ok ["v"]⟩]).retids = [7, 9] ∧
    (multiInsertEnts
        (fun j => ((chunked (pgBatchSize 1) [7, 9]).getD j [], none))
        [⟨true, 0, false, false, "t", .ok ["a"], .ok ["v"]⟩,
         ⟨true, 0, false, false, "t", .ok ["a"], .ok ["v"]⟩]).err = none ∧
    (multiInsertEnts
        (fun j => ((chunked (pgBatchSize 1) [7, 9]).getD j [], none))
        [⟨true, 0, false, false, "t", .ok ["a"], .ok ["v"]⟩,
         ⟨true, 0, false, false, "t", .ok ["a"], .ok ["v"]⟩]).retids.length =
      ([⟨true, 0, false, false, "t", .ok ["a"], .ok ["v"]⟩,
        ⟨true, 0, false, false, "t", .ok ["a"], .ok ["v"]⟩] : List Ent).length :=
  bulk_ids_preserve_order ⟨true, 0, false, false, "t", .ok ["a"], .ok ["v"]⟩
    [⟨true, 0, false, false, "t", .ok ["a"], .ok ["v"]⟩]
    (fun j => ((chunked (pgBatchSize 1) [7, 9]).getD j [], none))
    [7, 9] ["a"] rfl rfl (by decide) rfl (fun j => rfl)

/-- A concrete record with the identifier capability, id 5 before the
insert. -/
def idEnt : Ent := ⟨true, 5, false, false, "stops", .ok ["onestop_id"], .ok ["abc"]⟩

/-- C1: the standalone InsertEnt of src/dbutil/db.go loses the generated
identifier.  At a concrete input where the store generates id 42 on the
postgres path, dbInsertEnt returns 0 and writes 0 into the record via
SetID, because the scan target entId is never connected to the returned
eid.  By contrast PostgresAdapter.InsertEnt implements the claimed
behavior: with the capability it scans id 42 back, stores it via SetID
and returns it; without the capability it returns zero. -/
theorem insertEnt_returns_zero_id :
    dbInsertEnt true none 42 (.ok 0) idEnt = (0, none, { idEnt with id := 0 }) ∧
    pgInsertEnt (.ok 42) none idEnt = (42, none, { idEnt with id := 42 }) ∧
    pgInsertEnt (.ok 999) none { idEnt with canSetID := false } =
      (0, none, { idEnt with canSetID := false }) :=
  ⟨rfl, rfl, rfl⟩

/-- A concrete record without the identifier capability. -/
def noCapEnt : Ent := ⟨false, 7, false, false, "riders", .ok ["a"], .ok ["x"]⟩

/-- C7: PostgresAdapter.FindEnt is the stub "return nil": it returns nil
(success) for a record without the identifier capability and never
surfaces NotFound, while the engine-level FindEnt of src/dbutil/db.go
behaves as the claim states — a mapping error without the capability, and
the distinct NotFound sentinel when zero rows match. -/
theorem findEnt_stub_returns_nil :
    pgAdapterFindEnt noCapEnt = none ∧
    pgAdapterFindEnt idEnt = none ∧
    findEnt none none noCapEnt = .error (.mappingError "cannot get ID") ∧
    findEnt none none idEnt = .error .notFound :=
  ⟨rfl, rfl, rfl, rfl⟩

/-- C8: the empty batch is a no-op for both bulk paths: MultiInsertEnts
returns an empty identifier list, a nil error and zero statements;
CopyInsertEnts returns a nil error, no transaction primitive runs
(noTxEffects: no Beginx, Commit or Rollback) and zero row statements are
issued. -/
theorem empty_bulk_insert_noop (exec : Nat → List Int × Option Err)
    (beh : TxBeh) (env : CopyEnv) (adapter : PGAdapter) :
    multiInsertEnts exec [] = ⟨[], none, 0⟩ ∧
    copyInsertEnts beh env adapter [] = (none, noTxEffects, 0) :=
  ⟨rfl, rfl⟩

/-- A record whose value extraction fails. -/
def badValsEnt : Ent :=
  ⟨false, 0, false, false, "t", .ok ["a"], .error "cannot extract values"⟩

/-- A record whose header derivation fails. -/
def badHeaderEnt : Ent :=
  ⟨false, 0, false, false, "t", .error "bad header", .ok ["v"]⟩

/-- A record whose derived header has 40000 columns, so the computed chunk
size is 65536 / 40001 = 1 and a two-record batch needs two chunks. -/
def wideEnt : Ent :=
  ⟨false, 0, false, false, "t", .ok (List.replicate 40000 "c"), .ok ["v"]⟩

/-- An execution oracle under which the first chunk statement fails and
every later one succeeds. -/
def execFailFirst : Nat → List Int × Option Err :=
  fun i => if i = 0 then ([], some "chunk 0 exec failed") else ([], none)

/-- C9: MultiInsertEnts swallows errors.  Three concrete runs, each ending
with a nil error: a value-extraction failure for a record in the chunk is
discarded outright; a header-derivation error for the first record is
overwritten by a successful execution on the plain (no identifier) path;
and an execution failure of the first of two chunks is overwritten by the
success of the second chunk on the plain path. -/
theorem multiInsert_swallows_errors :
    multiInsertEnts (fun _ => ([], none)) [badValsEnt] = ⟨[], none, 1⟩ ∧
    multiInsertEnts (fun _ => ([], none)) [badHeaderEnt] = ⟨[], none, 1⟩ ∧
    multiInsertEnts execFailFirst [wideEnt, wideEnt] = ⟨[], none, 2⟩ := by
  refine ⟨rfl, rfl, ?_⟩
  have hbs : pgBatchSize (List.replicate 40000 "c").length = 1 := by
    rw [List.length_replicate]
    decide
  have hstamp : updateTimestamps wideEnt = wideEnt := rfl
  have hh : wideEnt.headerRes = Except.ok (List.replicate 40000 "c") := rfl
  have hset : wideEnt.canSetID = false := rfl
  simp only [multiInsertEnts, hstamp, hh, hset, List.map_cons, List.map_nil, hbs]
  rfl

/-- C6: for a record with the identifier capability, UpdateEnt builds
UPDATE table SET ... WHERE id = record.id whose SET clause contains
exactly the derived header columns named in the given subset (every other
derived column is absent); with an empty subset every derived column is
set. -/
theorem update_set_clause_restriction (ent : Ent) (columns : List String)
    (hdr : List String) (vs : List String)
    (hid : ent.canSetID = true)
    (hh : ent.headerRes = .ok hdr)
    (hv : ent.valsRes = .ok vs)
    (hlen : vs.length = hdr.length) :
    ∃ stmt, buildUpdateEnt ent columns = .ok stmt ∧
      stmt.table = ent.table ∧
      stmt.entId = ent.id ∧
      stmt.setPairs.map Prod.fst =
        (if columns = [] then hdr
         else hdr.filter (fun c => contains c columns)) := by
  refine ⟨⟨ent.table, ent.id, (hdr.zip vs).filter
      (fun cv => !(columns.length > 0 && !(contains cv.1 columns)))⟩,
      ?_, rfl, rfl, ?_⟩
  · simp only [buildUpdateEnt, updateTimestamps_canSetID,
      updateTimestamps_headerRes, updateTimestamps_valsRes,
      updateTimestamps_table, updateTimestamps_id, hid, hh, hv, if_true]
  · show ((hdr.zip vs).filter
        (fun cv => !(decide (columns.length > 0) && !(contains cv.1 columns)))).map
          Prod.fst =
      if columns = [] then hdr else hdr.filter (fun c => contains c columns)
    rw [zip_filter_map_fst
      (fun s => !(decide (columns.length > 0) && !(contains s columns))) hdr vs hlen]
    cases columns with
    | nil => simp
    | cons c0 cs =>
      simp only [List.length_cons, reduceCtorEq, if_false]
      refine List.filter_congr ?_
      intro a _
      cases h : contains a (c0 :: cs) <;> simp [h]

/-- Witness for C6 at concrete inputs: restricting the update of a
two-column record to one column keeps exactly that column in the SET
clause. -/
theorem update_set_clause_restriction_witness :
    ∃ stmt, buildUpdateEnt
        ⟨true, 5, false, false, "stops", .ok ["onestop_id", "geom"],
          .ok ["abc", "pt"]⟩ ["geom"] = .ok stmt ∧
      stmt.table = (⟨true, 5, false, false, "stops",
          .ok ["onestop_id", "geom"], .ok ["abc", "pt"]⟩ : Ent).table ∧
      stmt.entId = (⟨true, 5, false, false, "stops",
          .ok ["onestop_id", "geom"], .ok ["abc", "pt"]⟩ : Ent).id ∧
      stmt.setPairs.map Prod.fst =
        (if (["geom"] : List String) = [] then ["onestop_id", "geom"]
         else ["onestop_id", "geom"].filter (fun c => contains c ["geom"])) :=
  update_set_clause_restriction
    ⟨true, 5, false, false, "stops", .ok ["onestop_id", "geom"], .ok ["abc", "pt"]⟩
    ["geom"] ["onestop_id", "geom"] ["abc", "pt"] rfl rfl rfl rfl

/-- C10: Open on an adapter constructed with only a database URL (nil
handle) never stores the opened connection: on a successful Open the
adapter handle is still nil afterward, and DBX returns nil. -/
theorem open_does_not_store_handle (u : String) (openRes : Except Err Handle)
    (pingErr : Option Err)
    (hok : (pgOpen openRes pingErr ⟨u, none⟩).1 = none) :
    (pgOpen openRes pingErr ⟨u, none⟩).2.dbh = none ∧
    pgDBX (pgOpen openRes pingErr ⟨u, none⟩).2 = none := by
  have h2 : (pgOpen openRes pingErr ⟨u, none⟩).2 = ⟨u, none⟩ := by
    cases openRes <;> cases pingErr <;> rfl
  exact ⟨by rw [h2], by rw [h2]; rfl⟩

/-- Witness for C10 at concrete inputs: a successful Open leaves the
handle nil and DBX nil. -/
theorem open_does_not_store_handle_witness :
    (pgOpen (.ok Handle.db) none ⟨"postgres://x", none⟩).2.dbh = none ∧
    pgDBX (pgOpen (.ok Handle.db) none ⟨"postgres://x", none⟩).2 = none :=
  open_does_not_store_handle "postgres://x" (.ok Handle.db) none rfl
